import Mathlib

/-!
# Verification of the `nirspec_reductions` image-reduction pipeline

Shallow embedding of the repository's two source files:

* `src/fits_dataclass.py` — the `Image` / `ImageSet` / `Transform`
  partition-filter-transform engine;
* `src/.ipynb_checkpoints/image_utils-checkpoint.py` — the calibration
  operations (`combine_flats`, `combine_darks`, `subtract_dark`,
  `perform_darksub`, `cosmic_clean`).

Modelling conventions:

* Python header values (`Dict[str, Any]`) are modelled by `PyVal`: Python's
  `None` is the value `PyVal.none` (faithful to `dict.get(key, None)`, which
  conflates a stored `None` with a missing key).  Python's cross-type numeric
  equality (`2 == 2.0`) is not modelled; no claim depends on it.
* Numeric arrays (`np.ndarray` payloads) are modelled as `List Rat`
  (element-wise, flattened); element-wise numpy operations become `zipWith` /
  per-index maps, with a shape error when lengths disagree.
* Fallible Python code (KeyError / IndexError / AssertionError / the
  `ValueError` raised by a failed FITS load) is modelled with
  `Except PyError`.  Reading a FITS file from disk is external I/O and is
  modelled as failing, so a record's payload is accessible exactly when it is
  already materialized (`_data = some _`).
* Python object identity (`id(image)`, used by `Transform.__call__` when
  `partition_keys` is absent) is modelled by an extra field `oid` on `Image`:
  distinct live objects carry distinct `oid`s, and aliased occurrences of one
  object share theirs.  `oid` is not a dataclass field of the source; it is
  the heap identity the embedding needs.  Records freshly constructed by the
  calibration operations get `oid := 0`; no claim depends on the identity of
  a derived record.
-/

/-- Python exceptions raised by the embedded code. -/
inductive PyError where
  /-- `ValueError(f"Unable to load FITS data: ...")` from `Image.data`. -/
  | loadError
  /-- `KeyError` from `header[key]` on a missing key. -/
  | keyError (key : String)
  /-- `IndexError` from `imgs[0]` on an empty `ImageSet`. -/
  | indexError
  /-- A failed `assert` statement. -/
  | assertionError
  /-- numpy failure on incompatible array shapes. -/
  | shapeError
deriving DecidableEq, Repr

mutual
/-- A Python value stored in a FITS header (string, number, `None`, or a list
of values such as `FLATFILES` / `DARKFILES`). -/
inductive PyVal where
  | none
  | str (s : String)
  | int (n : Int)
  | rat (q : Rat)
  | vlist (l : PyValList)
deriving DecidableEq, Repr
/-- A list of `PyVal`s (spelled out so that decidable equality derives). -/
inductive PyValList where
  | nil
  | cons (hd : PyVal) (tl : PyValList)
deriving DecidableEq, Repr
end

/-- Build a `PyValList` from a Lean list. -/
def PyValList.ofList : List PyVal → PyValList
  | [] => .nil
  | x :: xs => .cons x (PyValList.ofList xs)

/-- A FITS header: an ordered string-keyed mapping (Python `dict`).  Concrete
headers are built with distinct keys, matching `dict` semantics. -/
abbrev Header : Type := List (String × PyVal)

/-- Python `header.get(key, None)`. -/
def Header.get (h : Header) (key : String) : PyVal :=
  match List.find? (fun kv => kv.1 == key) h with
  | Option.some kv => kv.2
  | Option.none => PyVal.none

/-- Python `header[key]`: the value, or a `KeyError`. -/
def Header.getItem (h : Header) (key : String) : Except PyError PyVal :=
  match List.find? (fun kv => kv.1 == key) h with
  | Option.some kv => Except.ok kv.2
  | Option.none => Except.error (PyError.keyError key)

/-- Python `header[key] = v`: replace in place if the key exists, else append
(insertion-ordered `dict` assignment). -/
def Header.set (h : Header) (key : String) (v : PyVal) : Header :=
  match h with
  | [] => [(key, v)]
  | kv :: rest =>
      if kv.1 = key then (key, v) :: rest else kv :: Header.set rest key v

/-- `Image` (dataclass of `src/fits_dataclass.py`): a FITS header together
with an optionally materialized payload and the backing filename.  `oid`
models Python object identity (see the module docstring). -/
structure Image where
  header : Header
  _data : Option (List Rat) := Option.none
  _filename : Option String := Option.none
  oid : Nat := 0
deriving DecidableEq, Repr

/-- The `Image.data` property: the cached array if present, otherwise the
FITS read — external I/O, which the model cannot perform, so the lazy branch
fails the way the source's `except` clause does (`ValueError`). -/
def Image.data (im : Image) : Except PyError (List Rat) :=
  match im._data with
  | Option.some d => Except.ok d
  | Option.none => Except.error PyError.loadError

/-- `Image.metadata(*keys)`: `tuple(self.header.get(key, None) for key in keys)`. -/
def Image.metadata (im : Image) (keys : List String) : List PyVal :=
  keys.map (fun key => Header.get im.header key)

/-- `ImageSet`: an ordered collection of images. -/
structure ImageSet where
  images : List Image
deriving DecidableEq, Repr

/-- One argument of the variadic `ImageSet.__init__`: a single `Image` or an
iterable of `Image`s. -/
inductive ImageSetArg where
  | one (im : Image)
  | many (ims : List Image)

/-- `ImageSet(*imagesets)`: flatten the arguments exactly one level, in
order. -/
def ImageSet.init (imagesets : List ImageSetArg) : ImageSet :=
  ⟨imagesets.flatMap (fun a =>
    match a with
    | ImageSetArg.one im => [im]
    | ImageSetArg.many ims => ims)⟩

/-- `ImageSet(l)` for a single list argument `l` — the constructor call shape
every call site of the repository uses. -/
def ImageSet.ofList (l : List Image) : ImageSet := ImageSet.init [ImageSetArg.many l]

/-- `ImageSet.query(**kwargs)`: keep the images whose metadata tuple for the
criteria's keys equals the tuple of the criteria's values.  `criteria` is the
ordered kwargs mapping. -/
def ImageSet.query (s : ImageSet) (criteria : List (String × PyVal)) : ImageSet :=
  ImageSet.ofList (s.images.filter
    (fun img => img.metadata (criteria.map Prod.fst) == criteria.map Prod.snd))

/-- A partition key of `Transform.__call__.partition_value`: either the tuple
of metadata values for `partition_keys`, or `id(image)` when no keys are
given. -/
inductive PartKey where
  | meta (vals : List PyVal)
  | pyid (oid : Nat)
deriving DecidableEq, Repr

/-- What `transform_op(*bucket)` may return: a single `Image` or an iterable
of `Image`s (the two cases `ensure_list` distinguishes). -/
inductive TransformResult where
  | one (im : Image)
  | many (ims : List Image)

/-- `Transform.__call__.ensure_list`. -/
def ensure_list (elts : TransformResult) : List Image :=
  match elts with
  | TransformResult.one im => [im]
  | TransformResult.many ims => ims

/-- The `Transform` dataclass: an aggregation op, an optional inclusion
filter and optional partition keys. -/
structure Transform where
  transform_op : List Image → TransformResult
  filter : Option (Image → Bool) := Option.none
  partition_keys : Option (List String) := Option.none

/-- `self.filter is not None and not self.filter(image)` — the condition
routing an image to the `ignored` list. -/
def Transform.filterRejects (t : Transform) (image : Image) : Bool :=
  match t.filter with
  | Option.some f => !f image
  | Option.none => false

/-- `Transform.__call__.partition_value`. -/
def Transform.partition_value (t : Transform) (image : Image) : PartKey :=
  match t.partition_keys with
  | Option.some keys => PartKey.meta (image.metadata keys)
  | Option.none => PartKey.pyid image.oid

/-- `partition[key].append(image)` on the insertion-ordered
`defaultdict(list)`: append to the existing bucket for `key`, or open a new
bucket at the end. -/
def bucketAppend (part : List (PartKey × List Image)) (key : PartKey)
    (image : Image) : List (PartKey × List Image) :=
  match part with
  | [] => [(key, [image])]
  | (k, b) :: rest =>
      if k = key then (k, b ++ [image]) :: rest
      else (k, b) :: bucketAppend rest key image

/-- One iteration of the `for image in images` loop of `Transform.__call__`:
the state is the pair (`ignored`, `partition`). -/
def Transform.step (t : Transform) (acc : List Image × List (PartKey × List Image))
    (image : Image) : List Image × List (PartKey × List Image) :=
  if t.filterRejects image then (acc.1 ++ [image], acc.2)
  else (acc.1, bucketAppend acc.2 (t.partition_value image) image)

/-- The whole loop of `Transform.__call__`: the final (`ignored`,
`partition`) pair.  `partition`'s buckets, in order, are exactly the argument
lists handed to `transform_op`. -/
def Transform.partitionRun (t : Transform) (images : List Image) :
    List Image × List (PartKey × List Image) :=
  images.foldl (Transform.step t) ([], [])

/-- `Transform.__call__`: run the loop, map `transform_op` over the buckets
(`partition.values()`, insertion order), flatten with `ensure_list`, and wrap
`transformed + ignored` in a new `ImageSet`. -/
def Transform.call (t : Transform) (images : ImageSet) : ImageSet :=
  let p := t.partitionRun images.images
  let transformed :=
    ((p.2.map Prod.snd).map (fun b => ensure_list (t.transform_op b))).flatten
  ImageSet.ofList (transformed ++ p.1)

example : ImageSet.query (ImageSet.ofList
    [{ header := [("IMAGETYP", PyVal.str "object")] },
     { header := [("IMAGETYP", PyVal.str "masterdark")] }])
    [("IMAGETYP", PyVal.str "masterdark")]
    = ImageSet.ofList [{ header := [("IMAGETYP", PyVal.str "masterdark")] }] := by
  decide

/-! ## Spec-side characterizations

Declarative restatements of the spec's algorithm description (§4.3), written
from the spec's words, to be proved equal to the operational embedding
above. -/

/-- Spec-side: the records of `l` grouped by partition key, keys in
first-seen order, each bucket carrying its records in their original relative
order (spec §4.3 step 1: "buckets keyed in first-seen order"). -/
def groupFirstSeen (pv : Image → PartKey) : List Image → List (PartKey × List Image)
  | [] => []
  | i :: rest =>
      (pv i, i :: rest.filter (fun j => pv j == pv i)) ::
        groupFirstSeen pv (rest.filter (fun j => pv j != pv i))
termination_by l => l.length
decreasing_by
  exact Nat.lt_succ_of_le (List.length_filter_le _ _)

/-- Extend an existing partition (an insertion-ordered bucket list) with the
records of a further list: records whose key already has a bucket are
appended there, the rest open new buckets in first-seen order.  `augment pv
[] l = groupFirstSeen pv l` by definition; this generalization is what the
fold of `Transform.partitionRun` preserves. -/
def augment (pv : Image → PartKey) :
    List (PartKey × List Image) → List Image → List (PartKey × List Image)
  | [], l => groupFirstSeen pv l
  | (k, b) :: rest, l =>
      (k, b ++ l.filter (fun j => pv j == k)) ::
        augment pv rest (l.filter (fun j => pv j != k))

/-- Spec-side reading of `query`'s criterion (spec §4.2): the record's
`metadata_values` for the criteria's keys, in order with `None` for missing
keys, are strictly equal to the criteria's values. -/
def matchesCriteria (criteria : List (String × PyVal)) (im : Image) : Prop :=
  im.metadata (criteria.map Prod.fst) = criteria.map Prod.snd

instance (criteria : List (String × PyVal)) (im : Image) :
    Decidable (matchesCriteria criteria im) := by
  unfold matchesCriteria; infer_instance

/-! ## Calibration operations (`src/.ipynb_checkpoints/image_utils-checkpoint.py`) -/

/-- Insert into a sorted list of rationals (helper for `median`). -/
def insertSorted (x : Rat) : List Rat → List Rat
  | [] => [x]
  | y :: ys => if x ≤ y then x :: y :: ys else y :: insertSorted x ys

/-- Sort a list of rationals (insertion sort; only the sorted order matters
for the median, so the sorting algorithm itself is immaterial). -/
def sortRats : List Rat → List Rat
  | [] => []
  | x :: xs => insertSorted x (sortRats xs)

/-- The median of a nonempty list of rationals, as `np.median` computes it:
middle element of the sorted list for odd length, mean of the two middle
elements for even length.  (For the empty list numpy yields NaN; the embedded
call sites are guarded by a nonemptiness assert, so `0` here is never
reached.) -/
def median (xs : List Rat) : Rat :=
  let s := sortRats xs
  let n := s.length
  if n % 2 = 1 then s.getD (n / 2) 0
  else (s.getD (n / 2 - 1) 0 + s.getD (n / 2) 0) / 2

/-- `np.median(arrs, axis=0)`: the per-index median across a nonempty list of
equal-length arrays.  Ragged or empty input is a numpy-level failure, modelled
as `shapeError`. -/
def npMedianAxis0 (arrs : List (List Rat)) : Except PyError (List Rat) :=
  match arrs with
  | [] => Except.error PyError.shapeError
  | a :: rest =>
      if rest.all (fun b => b.length == a.length) then
        Except.ok ((List.range a.length).map
          (fun i => median (arrs.map (fun arr => arr.getD i 0))))
      else Except.error PyError.shapeError

/-- `np.subtract(a, b)`: element-wise difference of equal-shape arrays. -/
def npSubtract (a b : List Rat) : Except PyError (List Rat) :=
  if a.length = b.length then Except.ok (List.zipWith (fun x y => x - y) a b)
  else Except.error PyError.shapeError

/-- `combine_flats(*fns)`: assert at least one input, median-combine the
payloads, and derive the header from the first input with
`IMAGETYP='masterflat'` and `FLATFILES=[fn.header['FILENAME'] ...]`.
(`deepcopy` is the identity on pure values.) -/
def combine_flats (fns : List Image) : Except PyError Image :=
  if fns.length ≥ 1 then do
    let datas ← fns.mapM Image.data
    let mflat_data ← npMedianAxis0 datas
    let fnames ← fns.mapM (fun fn => Header.getItem fn.header "FILENAME")
    let mflat_hdr :=
      Header.set (Header.set (fns.headD { header := [] }).header
        "IMAGETYP" (PyVal.str "masterflat"))
        "FLATFILES" (PyVal.vlist (PyValList.ofList fnames))
    Except.ok { header := mflat_hdr, _data := Option.some mflat_data }
  else Except.error PyError.assertionError

/-- `combine_darks(*dks)`: as `combine_flats`, with `IMAGETYP='masterdark'`
and `DARKFILES`. -/
def combine_darks (dks : List Image) : Except PyError Image :=
  if dks.length ≥ 1 then do
    let datas ← dks.mapM Image.data
    let mdark_data ← npMedianAxis0 datas
    let fnames ← dks.mapM (fun dk => Header.getItem dk.header "FILENAME")
    let mdark_hdr :=
      Header.set (Header.set (dks.headD { header := [] }).header
        "IMAGETYP" (PyVal.str "masterdark"))
        "DARKFILES" (PyVal.vlist (PyValList.ofList fnames))
    Except.ok { header := mdark_hdr, _data := Option.some mdark_data }
  else Except.error PyError.assertionError

/-- `subtract_dark(img, dark)`: `np.subtract(img.data, dark.data)`, then a
header derived from `img`'s with `DARKSUB='yes'` and
`MDARK_FILES=dark.header['DARKFILES']` (a `KeyError` when the reference
carries no `DARKFILES` entry). -/
def subtract_dark (img dark : Image) : Except PyError Image := do
  let a ← img.data
  let b ← dark.data
  let dimg ← npSubtract a b
  let dfiles ← Header.getItem dark.header "DARKFILES"
  let hdr := Header.set (Header.set img.header "DARKSUB" (PyVal.str "yes"))
    "MDARK_FILES" dfiles
  Except.ok { header := hdr, _data := Option.some dimg }

/-- `perform_darksub(*imgs)`: wrap the arguments in an `ImageSet`, query for
the master dark, run the two debug `print` statements (the second of which
evaluates `imgs[0].header['ITIME']` — an `IndexError` on an empty set, a
`KeyError` when the first image has no `ITIME` entry), assert at most one
master dark, and either return the set unchanged or dark-subtract every
`object` / `masterflat` image. -/
def perform_darksub (imgs0 : List Image) : Except PyError ImageSet := do
  let imgs := ImageSet.ofList imgs0
  let dark := imgs.query [("IMAGETYP", PyVal.str "masterdark")]
  let first ← match imgs.images with
    | [] => Except.error PyError.indexError
    | i :: _ => Except.ok i
  let _itime ← Header.getItem first.header "ITIME"
  if dark.images.length ≤ 1 then
    match dark.images with
    | [] => Except.ok imgs
    | d :: _ => do
        let out ← imgs.images.mapM (fun im => do
          let t ← Header.getItem im.header "IMAGETYP"
          if t = PyVal.str "object" ∨ t = PyVal.str "masterflat" then
            subtract_dark im d
          else
            Except.ok im)
        Except.ok (ImageSet.ofList out)
  else Except.error PyError.assertionError

/-- The keyword arguments `cosmic_clean` hands to
`astroscrappy.detect_cosmics` (the external detector), besides the image
array itself.  `satlevel=np.inf` and `inmask=None` are fixed literals with no
finite model and are omitted; no claim concerns them. -/
structure DetectCosmicsArgs where
  pssl : PyVal
  gain : PyVal
  sigclip : PyVal
  sigfrac : PyVal
  objlim : PyVal
  readnoise : PyVal
  sepmed : Bool
  cleantype : String
  fsmode : String
deriving DecidableEq, Repr

/-- The argument computation of `cosmic_clean` (lines 53–72): the local
defaults, the kwargs lookups for `readnoise` and `gain`, and the literal
argument list of the `detect_cosmics` call.  The call site passes the literal
`2.2` for `gain`, not the local `gain` computed from the kwargs — the local
is left unused, exactly as in the source. -/
def cosmic_clean_args (kwargs : List (String × PyVal)) : DetectCosmicsArgs :=
  let sig_clip : Rat := 5
  let sig_frac : Rat := 3 / 10
  let obj_lim : Rat := 5
  let readnoise : PyVal :=
    match List.find? (fun kv => kv.1 == "readnoise") kwargs with
    | Option.some kv => kv.2
    | Option.none => PyVal.rat 10
  let gain : PyVal :=
    match List.find? (fun kv => kv.1 == "gain") kwargs with
    | Option.some kv => kv.2
    | Option.none => PyVal.rat (11 / 5)
  { pssl := PyVal.rat 0
    gain := PyVal.rat (11 / 5)
    sigclip := PyVal.rat sig_clip
    sigfrac := PyVal.rat sig_frac
    objlim := PyVal.rat obj_lim
    readnoise := readnoise
    sepmed := false
    cleantype := "medmask"
    fsmode := "median" }

/-- `cosmic_clean(img, **kwargs)`, parameterized by the external detector
(`astroscrappy.detect_cosmics`), which receives the image array and the
argument record computed by `cosmic_clean_args` and returns the mask and the
cleaned array. -/
def cosmic_clean (detect : List Rat → DetectCosmicsArgs → List Bool × List Rat)
    (img : Image) (kwargs : List (String × PyVal)) : Except PyError Image := do
  let d ← img.data
  let res := detect d (cosmic_clean_args kwargs)
  let hdr := Header.set img.header "CLEANED" (PyVal.str "yes")
  Except.ok { header := hdr, _data := Option.some res.2 }

/-! ## Basic instances and unfolding lemmas -/

instance instDecidableEqExcept {e a : Type} [DecidableEq e] [DecidableEq a] :
    DecidableEq (Except e a) := fun x y =>
  match x, y with
  | Except.ok v, Except.ok w =>
      if h : v = w then Decidable.isTrue (by rw [h])
      else Decidable.isFalse (by intro hh; injection hh; exact h (by assumption))
  | Except.error v, Except.error w =>
      if h : v = w then Decidable.isTrue (by rw [h])
      else Decidable.isFalse (by intro hh; injection hh; exact h (by assumption))
  | Except.ok _, Except.error _ => Decidable.isFalse (by intro hh; injection hh)
  | Except.error _, Except.ok _ => Decidable.isFalse (by intro hh; injection hh)

@[simp] theorem ImageSet.ofList_images (l : List Image) :
    (ImageSet.ofList l).images = l := by
  simp [ImageSet.ofList, ImageSet.init]

theorem ImageSet.eta (s : ImageSet) : ImageSet.ofList s.images = s := by
  cases s; simp [ImageSet.ofList, ImageSet.init]

/-! ## The partition loop equals its declarative description -/

theorem augment_nil (pv : Image → PartKey) (part : List (PartKey × List Image)) :
    augment pv part [] = part := by
  induction part with
  | nil => simp [augment, groupFirstSeen]
  | cons kb rest ih =>
      obtain ⟨k, b⟩ := kb
      simp [augment, ih]

theorem augment_bucketAppend (pv : Image → PartKey)
    (part : List (PartKey × List Image)) (i : Image) (l : List Image) :
    augment pv (bucketAppend part (pv i) i) l = augment pv part (i :: l) := by
  induction part generalizing l with
  | nil =>
      simp [bucketAppend, augment, groupFirstSeen]
  | cons kb rest ih =>
      obtain ⟨k, b⟩ := kb
      by_cases hk : k = pv i
      · subst hk
        simp [bucketAppend, augment, groupFirstSeen]
      · have hk' : (pv i == k) = false := by
          simp [bne, beq_iff_eq]
          exact fun h => hk h.symm
        simp [bucketAppend, hk, augment, ih, hk', bne]

theorem foldl_step_eq (t : Transform) (l : List Image)
    (ign : List Image) (part : List (PartKey × List Image)) :
    l.foldl (Transform.step t) (ign, part) =
      (ign ++ l.filter (fun i => t.filterRejects i),
       augment t.partition_value part (l.filter (fun i => !t.filterRejects i))) := by
  induction l generalizing ign part with
  | nil => simp [augment_nil]
  | cons i rest ih =>
      by_cases h : t.filterRejects i
      · simp [Transform.step, h, List.filter_cons, ih]
      · simp only [List.foldl_cons, Transform.step, h, if_neg, Bool.false_eq_true,
          not_false_iff, ite_false]
        rw [ih]
        simp [List.filter_cons, h, augment_bucketAppend]

/-- The loop of `Transform.__call__`, declaratively: `ignored` is the
filter-rejected records in order, and the buckets are the included records
grouped by partition key, keys in first-seen order. -/
theorem partitionRun_eq (t : Transform) (l : List Image) :
    t.partitionRun l =
      (l.filter (fun i => t.filterRejects i),
       groupFirstSeen t.partition_value (l.filter (fun i => !t.filterRejects i))) := by
  have h := foldl_step_eq t l [] []
  simpa [Transform.partitionRun, augment] using h

/-- The buckets of `groupFirstSeen` carry each record of the input exactly
once: their concatenation is a permutation of the input list. -/
theorem groupFirstSeen_flatten_perm (pv : Image → PartKey) :
    ∀ (n : Nat) (l : List Image), l.length ≤ n →
      (((groupFirstSeen pv l).map Prod.snd).flatten).Perm l := by
  intro n
  induction n with
  | zero =>
      intro l h
      have : l = [] := List.eq_nil_of_length_eq_zero (Nat.le_zero.mp h)
      subst this
      simp [groupFirstSeen]
  | succ n ih =>
      intro l h
      match l with
      | [] => simp [groupFirstSeen]
      | i :: rest =>
          rw [groupFirstSeen]
          simp only [List.map_cons, List.flatten_cons]
          have hle : rest.length ≤ n := by
            simp only [List.length_cons] at h
            omega
          have hlen : (rest.filter (fun j => pv j != pv i)).length ≤ n := by
            have := List.length_filter_le (fun j => pv j != pv i) rest
            omega
          have hperm := ih (rest.filter (fun j => pv j != pv i)) hlen
          have hsplit : (rest.filter (fun j => pv j == pv i) ++
              rest.filter (fun j => pv j != pv i)).Perm rest := by
            have h2 := List.filter_append_perm (fun j => pv j == pv i) rest
            have h3 : (fun j => !(pv j == pv i)) = (fun j => pv j != pv i) := by
              funext j
              simp [bne]
            rw [h3] at h2
            exact h2
          have h1 : ((i :: rest.filter (fun j => pv j == pv i)) ++
              ((groupFirstSeen pv (rest.filter (fun j => pv j != pv i))).map
                Prod.snd).flatten).Perm
              ((i :: rest.filter (fun j => pv j == pv i)) ++
                rest.filter (fun j => pv j != pv i)) :=
            List.Perm.append_left _ hperm
          have h2 : ((i :: rest.filter (fun j => pv j == pv i)) ++
              rest.filter (fun j => pv j != pv i)).Perm (i :: rest) := by
            simpa using List.Perm.cons i hsplit
          simpa using h1.trans h2

/-- When the partition keys of the input are pairwise distinct, every record
is its own singleton bucket, in order. -/
theorem groupFirstSeen_of_nodup (pv : Image → PartKey) :
    ∀ (n : Nat) (l : List Image), l.length ≤ n → (l.map pv).Nodup →
      groupFirstSeen pv l = l.map (fun i => (pv i, [i])) := by
  intro n
  induction n with
  | zero =>
      intro l h _
      have : l = [] := List.eq_nil_of_length_eq_zero (Nat.le_zero.mp h)
      subst this
      simp [groupFirstSeen]
  | succ n ih =>
      intro l h hnd
      match l with
      | [] => simp [groupFirstSeen]
      | i :: rest =>
          rw [groupFirstSeen]
          simp only [List.map_cons, List.nodup_cons] at hnd
          obtain ⟨hni, hnd⟩ := hnd
          have heq : rest.filter (fun j => pv j == pv i) = [] := by
            rw [List.filter_eq_nil_iff]
            intro j hj
            simp only [beq_iff_eq]
            intro hc
            exact hni (hc ▸ List.mem_map_of_mem pv hj)
          have hall : rest.filter (fun j => pv j != pv i) = rest := by
            rw [List.filter_eq_self]
            intro j hj
            simp only [bne_iff_ne, ne_eq]
            intro hc
            exact hni (hc ▸ List.mem_map_of_mem pv hj)
          rw [heq, hall]
          have hlen : rest.length ≤ n := by
            simp only [List.length_cons] at h
            omega
          rw [ih rest hlen hnd]
          simp

/-! ## Arithmetic helpers for the calibration operations -/

theorem range_map_getD (l : List Rat) :
    (List.range l.length).map (fun i => l.getD i 0) = l := by
  induction l with
  | nil => simp
  | cons x xs ih =>
      rw [List.length_cons, List.range_succ_eq_map]
      rw [List.map_cons, List.map_map]
      rw [show ((fun i => (x :: xs).getD i 0) ∘ Nat.succ) = (fun i => xs.getD i 0) from rfl]
      rw [ih]
      rfl

theorem median_single (x : Rat) : median [x] = x := by
  simp [median, sortRats, insertSorted]

theorem zipWith_sub_self (d : List Rat) :
    List.zipWith (fun x y => x - y) d d = List.replicate d.length 0 := by
  induction d with
  | nil => simp
  | cons x xs ih => simp [ih, List.replicate_succ]

/-! ## The claims -/

/-- C1.  Every record of the input collection is accounted for exactly once
by `Transform.__call__`: the `ignored` list is exactly the filter-rejected
records in their original order, and the concatenation of all partition
buckets (the argument lists handed to `transform_op`) together with `ignored`
is a permutation of the input — no record is duplicated or dropped. -/
theorem partition_completeness (t : Transform) (s : ImageSet) :
    (t.partitionRun s.images).1 = s.images.filter (fun i => t.filterRejects i) ∧
    ((((t.partitionRun s.images).2.map Prod.snd).flatten) ++
      (t.partitionRun s.images).1).Perm s.images := by
  rw [partitionRun_eq]
  refine ⟨rfl, ?_⟩
  have h1 := groupFirstSeen_flatten_perm t.partition_value
    (s.images.filter (fun i => !t.filterRejects i)).length
    (s.images.filter (fun i => !t.filterRejects i)) (Nat.le_refl _)
  have h2 : ((s.images.filter (fun i => !t.filterRejects i)) ++
      (s.images.filter (fun i => t.filterRejects i))).Perm s.images := by
    have h3 := List.filter_append_perm (fun i => !t.filterRejects i) s.images
    simpa using h3
  exact (List.Perm.append h1 (List.Perm.refl _)).trans h2

/-- C3.  The output collection of `Transform.__call__` is exactly the
concatenation of the normalized (`ensure_list`) outputs of `transform_op` on
each bucket — buckets taken in first-seen key order, each holding its records
in original relative order — followed by the filter-excluded records in their
original relative order. -/
theorem call_output_characterization (t : Transform) (s : ImageSet) :
    (t.call s).images =
      ((groupFirstSeen t.partition_value
          (s.images.filter (fun i => !t.filterRejects i))).map
        (fun kb => ensure_list (t.transform_op kb.2))).flatten ++
      s.images.filter (fun i => t.filterRejects i) := by
  rw [Transform.call]
  rw [partitionRun_eq]
  simp only [ImageSet.ofList_images, List.map_map]
  rfl

/-- C9.  If the inclusion filter rejects every record of the collection, the
transform builds no bucket at all (so `transform_op` is never invoked) and
returns a collection identical to the input in membership and order. -/
theorem filter_passthrough_identity (t : Transform) (f : Image → Bool)
    (s : ImageSet) (hf : t.filter = Option.some f)
    (hrej : ∀ i ∈ s.images, f i = false) :
    (t.partitionRun s.images).2 = [] ∧ t.call s = s := by
  have hrejects : ∀ i ∈ s.images, t.filterRejects i = true := by
    intro i hi
    simp [Transform.filterRejects, hf, hrej i hi]
  have hincl : s.images.filter (fun i => !t.filterRejects i) = [] := by
    rw [List.filter_eq_nil_iff]
    intro i hi
    simp [hrejects i hi]
  have hexcl : s.images.filter (fun i => t.filterRejects i) = s.images :=
    List.filter_eq_self.mpr hrejects
  constructor
  · rw [partitionRun_eq, hincl]
    simp [groupFirstSeen]
  · rw [Transform.call, partitionRun_eq, hincl, hexcl]
    simp [groupFirstSeen, ImageSet.eta]

/-- Witness for C9 at a concrete transform and two-record collection. -/
theorem filter_passthrough_identity_witness :
    (Transform.partitionRun
        { transform_op := fun l => TransformResult.many l,
          filter := Option.some (fun _ => false) }
        (ImageSet.ofList
          [{ header := [("IMAGETYP", PyVal.str "object")], oid := 1 },
           { header := [("IMAGETYP", PyVal.str "flat")], oid := 2 }]).images).2 = [] ∧
    Transform.call
        { transform_op := fun l => TransformResult.many l,
          filter := Option.some (fun _ => false) }
        (ImageSet.ofList
          [{ header := [("IMAGETYP", PyVal.str "object")], oid := 1 },
           { header := [("IMAGETYP", PyVal.str "flat")], oid := 2 }]) =
      ImageSet.ofList
          [{ header := [("IMAGETYP", PyVal.str "object")], oid := 1 },
           { header := [("IMAGETYP", PyVal.str "flat")], oid := 2 }] :=
  filter_passthrough_identity _ (fun _ => false) _ rfl (fun _ _ => rfl)

/-- C2 (amended).  When `partition_keys` is absent, partitioning is by Python
object identity (`id(image)`); provided no record object occurs more than
once among the included records (pairwise-distinct identities, i.e. no
aliased duplicate), every included record forms its own singleton bucket, in
order — so `transform_op` is invoked exactly once per included record with
that single record as its only argument. -/
theorem singleton_partitions_of_distinct_identity (t : Transform) (s : ImageSet)
    (hp : t.partition_keys = Option.none)
    (hnd : ((s.images.filter (fun i => !t.filterRejects i)).map Image.oid).Nodup) :
    (t.partitionRun s.images).2.map Prod.snd =
      (s.images.filter (fun i => !t.filterRejects i)).map (fun r => [r]) := by
  rw [partitionRun_eq]
  have hpv : t.partition_value = fun i => PartKey.pyid i.oid := by
    funext i
    simp [Transform.partition_value, hp]
  have hnd' : ((s.images.filter (fun i => !t.filterRejects i)).map
      t.partition_value).Nodup := by
    rw [hpv]
    have : ((s.images.filter (fun i => !t.filterRejects i)).map
        (fun i => PartKey.pyid i.oid)) =
        ((s.images.filter (fun i => !t.filterRejects i)).map Image.oid).map
          PartKey.pyid := by
      rw [List.map_map]
      rfl
    rw [this]
    exact hnd.map (fun a b h => by injection h)
  rw [groupFirstSeen_of_nodup t.partition_value
    (s.images.filter (fun i => !t.filterRejects i)).length _ (Nat.le_refl _) hnd']
  rw [List.map_map]
  rfl

/-- Witness for C2 (amended) at a concrete transform with no partition keys
and two distinct record objects. -/
theorem singleton_partitions_witness :
    (Transform.partitionRun { transform_op := fun l => TransformResult.many l }
        (ImageSet.ofList
          [{ header := [("FILENAME", PyVal.str "a.fits")], oid := 1 },
           { header := [("FILENAME", PyVal.str "b.fits")], oid := 2 }]).images).2.map
        Prod.snd =
      ((ImageSet.ofList
          [{ header := [("FILENAME", PyVal.str "a.fits")], oid := 1 },
           { header := [("FILENAME", PyVal.str "b.fits")], oid := 2 }]).images.filter
        (fun i => !Transform.filterRejects
          { transform_op := fun l => TransformResult.many l } i)).map (fun r => [r]) :=
  singleton_partitions_of_distinct_identity
    { transform_op := fun l => TransformResult.many l } _ rfl (by decide)

/-- Counterexample to C2 as stated: a collection in which one record object
occurs twice (an aliased duplicate, equal `oid`).  With no partition keys
both occurrences land in the same identity-keyed bucket, so `transform_op`
receives one bucket of two records rather than two singleton buckets. -/
theorem aliased_record_shares_bucket :
    (Transform.partitionRun { transform_op := fun l => TransformResult.many l }
        [{ header := [("FILENAME", PyVal.str "a.fits")], oid := 7 },
         { header := [("FILENAME", PyVal.str "a.fits")], oid := 7 }]).2.map Prod.snd =
      [[{ header := [("FILENAME", PyVal.str "a.fits")], oid := 7 },
        { header := [("FILENAME", PyVal.str "a.fits")], oid := 7 }]] ∧
    ([[{ header := [("FILENAME", PyVal.str "a.fits")], oid := 7 },
       { header := [("FILENAME", PyVal.str "a.fits")], oid := 7 }]] :
        List (List Image)) ≠
      [[{ header := [("FILENAME", PyVal.str "a.fits")], oid := 7 }],
       [{ header := [("FILENAME", PyVal.str "a.fits")], oid := 7 }]] := by
  constructor
  · decide
  · decide

/-- C4.  `query` returns a new collection holding exactly the records whose
metadata values for the criteria's keys (in order, `None` for a missing key)
are strictly equal to the criteria's values: the result is the filter of the
source's backing list by that criterion (hence original relative order and a
fresh membership list sharing the record objects, the source left
untouched), and membership in the result is equivalent to membership in the
source plus the metadata match. -/
theorem query_exact (s : ImageSet) (criteria : List (String × PyVal)) :
    (s.query criteria).images =
      s.images.filter (fun im => decide (matchesCriteria criteria im)) ∧
    (s.query criteria).images.Sublist s.images ∧
    ∀ im : Image, im ∈ (s.query criteria).images ↔
      im ∈ s.images ∧ matchesCriteria criteria im := by
  have hpred : (fun img : Image =>
      img.metadata (criteria.map Prod.fst) == criteria.map Prod.snd) =
      (fun im : Image => decide (matchesCriteria criteria im)) := by
    funext img
    by_cases h : matchesCriteria criteria img
    · have h' : img.metadata (criteria.map Prod.fst) = criteria.map Prod.snd := h
      simp [h, h']
    · have h' : ¬(img.metadata (criteria.map Prod.fst) = criteria.map Prod.snd) := h
      simp [h, h']
  have himg : (s.query criteria).images =
      s.images.filter (fun im => decide (matchesCriteria criteria im)) := by
    rw [ImageSet.query, ImageSet.ofList_images, hpred]
  refine ⟨himg, ?_, ?_⟩
  · rw [himg]
    exact List.filter_sublist s.images
  · intro im
    rw [himg]
    simp [List.mem_filter]

/-- C10.  `query` with empty criteria keeps every record: each record's
(empty) metadata tuple equals the (empty) criteria value tuple, so the
result is the whole collection in its original order. -/
theorem query_empty_criteria (s : ImageSet) :
    (s.query []).images = s.images := by
  rw [ImageSet.query, ImageSet.ofList_images]
  apply List.filter_eq_self.mpr
  intro im _
  rfl

/-- C5 (code bug).  With two master-dark records present, `perform_darksub`
never silently picks one, but the failure it raises is not always the
ambiguity guard: the debug statement `print(imgs[0].header['ITIME'])` runs
before the `assert len(dark) <= 1`, so when the first record's header lacks
`ITIME` the call dies with a `KeyError('ITIME')` instead; the
`AssertionError` (the `AmbiguousReferenceError` of the spec) is reached only
when that debug lookup succeeds. -/
theorem perform_darksub_ambiguity_eval :
    perform_darksub
        [{ header := [("IMAGETYP", PyVal.str "masterdark")], oid := 1 },
         { header := [("IMAGETYP", PyVal.str "masterdark")], oid := 2 }] =
      Except.error (PyError.keyError "ITIME") ∧
    perform_darksub
        [{ header := [("IMAGETYP", PyVal.str "masterdark"),
            ("ITIME", PyVal.int 2)], oid := 1 },
         { header := [("IMAGETYP", PyVal.str "masterdark"),
            ("ITIME", PyVal.int 2)], oid := 2 }] =
      Except.error PyError.assertionError := by
  constructor
  · decide
  · decide

/-- C6 (code bug).  On a collection with no master-dark, `perform_darksub`
does not always return the input unchanged: the debug statement
`print(imgs[0].header['ITIME'])` raises `IndexError` on the empty collection
and `KeyError('ITIME')` on records lacking an `ITIME` entry; the
pass-through works only for nonempty collections whose first record carries
`ITIME` (third conjunct). -/
theorem perform_darksub_no_dark_eval :
    perform_darksub [] = Except.error PyError.indexError ∧
    perform_darksub [{ header := [("IMAGETYP", PyVal.str "object")], oid := 1 }] =
      Except.error (PyError.keyError "ITIME") ∧
    perform_darksub
        [{ header := [("IMAGETYP", PyVal.str "object"),
            ("ITIME", PyVal.int 2)], oid := 1 }] =
      Except.ok (ImageSet.ofList
        [{ header := [("IMAGETYP", PyVal.str "object"),
            ("ITIME", PyVal.int 2)], oid := 1 }]) := by
  refine ⟨?_, ?_, ?_⟩
  · decide
  · decide
  · decide

/-- Counterexample to C7 as stated: for a single record `X` with a loadable
payload (and the `FILENAME` entry `combine_darks` itself reads),
`subtract(combine_median([X]), X)` does not succeed — `subtract_dark` reads
`dark.header['DARKFILES']` from its second argument, and a raw record
carries no `DARKFILES` entry, so the call raises `KeyError('DARKFILES')`. -/
theorem subtract_roundtrip_keyerror :
    (combine_darks [{ header := [("FILENAME", PyVal.str "f.fits"),
        ("IMAGETYP", PyVal.str "dark")], _data := Option.some [1, 2] }]).bind
      (fun m => subtract_dark m
        { header := [("FILENAME", PyVal.str "f.fits"),
          ("IMAGETYP", PyVal.str "dark")], _data := Option.some [1, 2] }) =
      Except.error (PyError.keyError "DARKFILES") := by
  decide

/-- C7 (amended).  For a single record `X` with a materialized payload whose
header carries both the `FILENAME` entry (read by `combine_darks`) and a
`DARKFILES` entry (read off the second argument by `subtract_dark`),
`subtract(combine_median([X]), X)` succeeds and its payload is everywhere
zero: the median of the one array is the array itself, and the element-wise
difference of the array with itself is all zeros. -/
theorem subtract_roundtrip_zero (X : Image) (d : List Rat) (vf vd : PyVal)
    (hd : X._data = Option.some d)
    (hf : Header.getItem X.header "FILENAME" = Except.ok vf)
    (hdk : Header.getItem X.header "DARKFILES" = Except.ok vd) :
    (combine_darks [X]).bind (fun m => subtract_dark m X) =
      Except.ok
        { header := Header.set (Header.set
            (Header.set (Header.set X.header "IMAGETYP" (PyVal.str "masterdark"))
              "DARKFILES" (PyVal.vlist (PyValList.ofList [vf])))
            "DARKSUB" (PyVal.str "yes"))
            "MDARK_FILES" vd,
          _data := Option.some (List.replicate d.length 0) } := by
  have hmed : npMedianAxis0 [d] = Except.ok d := by
    rw [npMedianAxis0]
    simp only [List.all_nil, if_true]
    have : (List.range d.length).map (fun i => median ([d].map (fun arr => arr.getD i 0)))
        = (List.range d.length).map (fun i => d.getD i 0) := by
      apply List.map_congr_left
      intro i _
      simp [median_single]
    rw [this, range_map_getD]
  have hdata : Image.data X = Except.ok d := by
    rw [Image.data, hd]
  have hsub : npSubtract d d = Except.ok (List.replicate d.length 0) := by
    rw [npSubtract, if_pos rfl, zipWith_sub_self]
  simp only [combine_darks, List.length_cons, List.length_nil, le_refl,
    Nat.le_add_left, if_true, List.mapM_cons, List.mapM_nil, hdata, hmed, hf, hdk,
    subtract_dark]
  simp [Except.bind, Except.pure, hmed, hsub, hdk, Image.data, pure, Bind.bind,
    PyValList.ofList, List.headD]

/-- Witness for C7 (amended) at a concrete two-pixel record. -/
theorem subtract_roundtrip_zero_witness :
    (combine_darks [{ header := [("FILENAME", PyVal.str "f.fits"),
        ("DARKFILES", PyVal.vlist PyValList.nil)], _data := Option.some [1, 2] }]).bind
      (fun m => subtract_dark m
        { header := [("FILENAME", PyVal.str "f.fits"),
          ("DARKFILES", PyVal.vlist PyValList.nil)], _data := Option.some [1, 2] }) =
      Except.ok
        { header := Header.set (Header.set
            (Header.set (Header.set [("FILENAME", PyVal.str "f.fits"),
                ("DARKFILES", PyVal.vlist PyValList.nil)]
              "IMAGETYP" (PyVal.str "masterdark"))
              "DARKFILES" (PyVal.vlist (PyValList.ofList [PyVal.str "f.fits"])))
            "DARKSUB" (PyVal.str "yes"))
            "MDARK_FILES" (PyVal.vlist PyValList.nil),
          _data := Option.some (List.replicate (List.length [(1 : Rat), 2]) 0) } :=
  subtract_roundtrip_zero
    { header := [("FILENAME", PyVal.str "f.fits"),
      ("DARKFILES", PyVal.vlist PyValList.nil)], _data := Option.some [1, 2] }
    [1, 2] (PyVal.str "f.fits") (PyVal.vlist PyValList.nil) rfl rfl rfl

/-- C8 (code bug).  `cosmic_clean` honors a `readnoise` option (and defaults
it to `10.0`), but the `gain` it computes from the options is never passed
on: the `detect_cosmics` call hardcodes the literal `2.2`, so supplying
`gain=5` still invokes the detector with `gain=2.2`. -/
theorem cosmic_clean_gain_hardcoded :
    (cosmic_clean_args [("gain", PyVal.rat 5)]).gain = PyVal.rat (11 / 5) ∧
    PyVal.rat (11 / 5) ≠ PyVal.rat 5 ∧
    (cosmic_clean_args []).readnoise = PyVal.rat 10 ∧
    (cosmic_clean_args [("readnoise", PyVal.rat 7)]).readnoise = PyVal.rat 7 := by
  refine ⟨rfl, ?_, rfl, rfl⟩
  simp only [ne_eq, PyVal.rat.injEq]
  norm_num
